import Mathlib

/-!
Verification of the snake-game core of `src/client/src/pages/Home.tsx`.

The embedding below translates the game-logic part of the page component
(constants, the `Position`/`GameState` data model, `updateGame`,
`generateFood`, the `handleKeyPress` input handler, `togglePause` and
`resetGame`) into Lean.  Rendering code is out of scope.

Modelling conventions:
* TypeScript numbers holding grid coordinates and direction components are
  modelled as `Int`; the score and high score only ever receive non-negative
  values and are modelled as `Nat`.
* JavaScript `%` is the truncated remainder, which is `Int.tmod` in Lean
  (not Lean's `%`, which is the Euclidean `Int.emod`).
* `Math.floor(Math.random() * GRID_SIZE)` produces an arbitrary value in
  `{0, …, GRID_SIZE-1}`; the random source is modelled as a stream
  `rng : Nat → Nat` of draws, the i-th sampled cell using draws `2*i` and
  `2*i+1`, each reduced `% GRID_SIZE`.  The `while` loop of `generateFood`
  is rejection sampling over that stream.
* `state.snake[0]` on a non-empty array is `List.headI` (the invariant
  `I1` keeps the snake non-empty; `headI` defaults to `⟨0, 0⟩` on `[]`).
-/

/-- Source constant `GRID_SIZE = 20` (Home.tsx line 13). -/
def GRID_SIZE : Nat := 20

/-- Source `interface Position { x: number; y: number }` (Home.tsx lines 17-20). -/
structure Position where
  x : Int
  y : Int
deriving DecidableEq, Repr

instance : Inhabited Position := ⟨⟨0, 0⟩⟩

/-- Source `interface GameState` (Home.tsx lines 22-30). -/
structure GameState where
  snake : List Position
  food : Position
  direction : Position
  nextDirection : Position
  score : Nat
  gameOver : Bool
  isPaused : Bool
deriving DecidableEq, Repr

/-- The wrapping of one coordinate axis: `(v + GRID_SIZE) % GRID_SIZE` with
the truncated JavaScript `%` (Home.tsx lines 307-308 apply this to
`head + direction` on each axis). -/
def wrap (v : Int) : Int := Int.tmod (v + GRID_SIZE) GRID_SIZE

/-- Membership test of a cell in the snake:
`snake.some(seg => seg.x === p.x && seg.y === p.y)`
(Home.tsx lines 287-289 and line 312). -/
def onSnake (snake : List Position) (p : Position) : Bool :=
  snake.any fun seg => seg.x == p.x && seg.y == p.y

/-- The speculative new head of a tick: the current head plus the committed
direction (`state.direction = state.nextDirection` at line 302), each axis
wrapped (Home.tsx lines 305-309). -/
def nextHead (s : GameState) : Position :=
  ⟨wrap (s.snake.headI.x + s.nextDirection.x),
   wrap (s.snake.headI.y + s.nextDirection.y)⟩

/-- The self-collision test of Home.tsx line 312. -/
def hitsSelf (s : GameState) : Bool :=
  onSnake s.snake (nextHead s)

/-- The food test of Home.tsx line 326:
`newHead.x === state.food.x && newHead.y === state.food.y`. -/
def eatsFood (s : GameState) : Bool :=
  (nextHead s).x == s.food.x && (nextHead s).y == s.food.y

/-- One tick of the game: `updateGame` (Home.tsx lines 296-335).  The food
placement is abstracted as `place` (the source calls `generateFood`, which
reads the already-grown snake and randomness).  `hs` is the `highScore`
value the closure of the function sees at line 314.  The second component models
the high-score write side effect of lines 315-316: `some v` when
`setHighScore(v)` and the `localStorage` write fire, `none` otherwise. -/
def updateGame (place : List Position → Position) (hs : Nat) (s : GameState) :
    GameState × Option Nat :=
  if s.gameOver || s.isPaused then (s, none)
  else if hitsSelf s then
    ({ s with direction := s.nextDirection, gameOver := true },
     if hs < s.score then some s.score else none)
  else
    let snake1 := nextHead s :: s.snake
    if eatsFood s then
      ({ s with direction := s.nextDirection, snake := snake1,
                score := s.score + 10, food := place snake1 }, none)
    else
      ({ s with direction := s.nextDirection, snake := snake1.dropLast }, none)

/-- The keyboard handler `handleKeyPress` (Home.tsx lines 339-370), applied to
the already-lowercased key string (`e.key.toLowerCase()` at line 341).  Note
that the space branch (lines 364-369) toggles `isPaused` with no guard. -/
def handleKeyPress (key : String) (s : GameState) : GameState :=
  if key == "arrowup" || key == "w" then
    if s.direction.y == 0 then { s with nextDirection := ⟨0, -1⟩ } else s
  else if key == "arrowdown" || key == "s" then
    if s.direction.y == 0 then { s with nextDirection := ⟨0, 1⟩ } else s
  else if key == "arrowleft" || key == "a" then
    if s.direction.x == 0 then { s with nextDirection := ⟨-1, 0⟩ } else s
  else if key == "arrowright" || key == "d" then
    if s.direction.x == 0 then { s with nextDirection := ⟨1, 0⟩ } else s
  else if key == " " then
    { s with isPaused := !s.isPaused }
  else s

/-- The pause button handler `togglePause` (Home.tsx lines 405-410); unlike
the keyboard space branch it is guarded by `!gameState.gameOver`. -/
def togglePause (s : GameState) : GameState :=
  if !s.gameOver then { s with isPaused := !s.isPaused } else s

/-- The canonical initial configuration (Home.tsx lines 34-42 and 391-399). -/
def initialState : GameState :=
  { snake := [⟨10, 10⟩], food := ⟨15, 15⟩, direction := ⟨1, 0⟩,
    nextDirection := ⟨1, 0⟩, score := 0, gameOver := false, isPaused := false }

/-- The reset button handler `resetGame` (Home.tsx lines 390-402). -/
def resetGame (_s : GameState) : GameState := initialState

/-- The i-th cell sampled by `generateFood` (Home.tsx lines 283-286): two
independent draws of `Math.floor(Math.random() * GRID_SIZE)`, modelled as the
stream values at indices `2*i` and `2*i+1` reduced into `{0, …, 19}`. -/
def cand (rng : Nat → Nat) (i : Nat) : Position :=
  ⟨(rng (2 * i) % GRID_SIZE : Nat), (rng (2 * i + 1) % GRID_SIZE : Nat)⟩

/-- The rejection-sampling loop of `generateFood` (Home.tsx lines 275-293):
resample until the candidate is not on the snake, and return the first such
candidate.  (The initial sample at lines 276-279 is dead: `isOnSnake` starts
`true`, so the loop body overwrites it before any test.)  The hypothesis is
exactly termination of the loop: some candidate of the stream is off the
snake. -/
def generateFood (snake : List Position) (rng : Nat → Nat)
    (h : ∃ i, onSnake snake (cand rng i) = false) : Position :=
  cand rng (Nat.find h)

/-- A cell lies on the 20×20 grid. -/
def inGrid (p : Position) : Prop :=
  0 ≤ p.x ∧ p.x < GRID_SIZE ∧ 0 ≤ p.y ∧ p.y < GRID_SIZE

instance (p : Position) : Decidable (inGrid p) := by
  unfold inGrid; infer_instance

/-- The four unit direction vectors of the data model. -/
def unitDirs : List Position := [⟨1, 0⟩, ⟨-1, 0⟩, ⟨0, 1⟩, ⟨0, -1⟩]

/-- A random stream is fair when every grid cell occurs among its sampled
candidates; this is the abstraction of `Math.random` under which the
rejection sampling of `generateFood` terminates. -/
def FairRng (rng : Nat → Nat) : Prop :=
  ∀ p, inGrid p → ∃ i, cand rng i = p

/-- The finite set of all cells of the 20×20 grid. -/
def gridCells : Finset Position :=
  (Finset.range GRID_SIZE ×ˢ Finset.range GRID_SIZE).image
    fun q => ⟨(q.1 : Int), (q.2 : Int)⟩

/-- A concrete draw stream that enumerates the whole grid cell by cell:
draw `2*i` is `i % GRID_SIZE` and draw `2*i+1` is `i / GRID_SIZE`, so the
i-th sampled candidate walks through all 400 cells.  It instantiates
`FairRng` for witnesses. -/
def enumRng (n : Nat) : Nat :=
  if n % 2 = 0 then n / 2 % GRID_SIZE else n / 2 / GRID_SIZE

/-- One externally driven event of a play session: a firing of the
`setInterval(updateGame, INITIAL_SPEED)` timer (Home.tsx line 378), a key
press, or a press of the reset button. -/
inductive Event where
  | tick
  | key (k : String)
  | reset
deriving DecidableEq, Repr

/-- One step of a play session.  The session state pairs the `GameState` of
`gameStateRef` with the persisted high score (the `highScore` React state,
kept in sync with `localStorage` by lines 315-316).  `hs0` is the high-score
value captured by the `updateGame` closure that `setInterval` was given: the
game-loop `useEffect` (Home.tsx lines 377-382) has an empty dependency list,
so the interval keeps calling the `updateGame` of the first render, whose
`highScore` is frozen at the mount-time value for the whole session even
after `setHighScore` runs. -/
def sessionStep (place : List Position → Position) (hs0 : Nat)
    (ss : GameState × Nat) (ev : Event) : GameState × Nat :=
  match ev with
  | .tick =>
      let r := updateGame place hs0 ss.1
      (r.1, r.2.getD ss.2)
  | .key k => (handleKeyPress k ss.1, ss.2)
  | .reset => (resetGame ss.1, ss.2)

/-- Fold a whole event trace through `sessionStep`. -/
def runSession (place : List Position → Position) (hs0 : Nat)
    (ss : GameState × Nat) (evs : List Event) : GameState × Nat :=
  evs.foldl (sessionStep place hs0) ss

/-- A deterministic food-placement script used to drive concrete sessions:
the cell returned by `generateFood` is resolved by the length the snake has
just grown to. -/
def foodScript (l : List Position) : Position :=
  match l.length with
  | 2 => ⟨15, 16⟩
  | 3 => ⟨15, 17⟩
  | 4 => ⟨15, 18⟩
  | _ => ⟨0, 0⟩

/-- A first game from the initial state: run right to column 15, turn down
and eat the food at (15,15), then the scripted food at (15,16), (15,17) and
(15,18) (score 40, length 5), then a left-up-right U-turn into the body. -/
def gameTrace1 : List Event :=
  [.tick, .tick, .tick, .tick, .tick,
   .key "arrowdown",
   .tick, .tick, .tick, .tick, .tick,
   .tick, .tick, .tick,
   .key "arrowleft", .tick,
   .key "arrowup", .tick,
   .key "arrowright", .tick]

/-- A second game, identical to the first up to score 30 (length 4), then
the same U-turn into the body: it ends in game over with score 30. -/
def gameTrace2 : List Event :=
  [.tick, .tick, .tick, .tick, .tick,
   .key "arrowdown",
   .tick, .tick, .tick, .tick, .tick,
   .tick, .tick,
   .key "arrowleft", .tick,
   .key "arrowup", .tick,
   .key "arrowright", .tick]

/-- The coordinate and direction invariant of a game state: every snake
cell and the food cell lie on the grid, and both the committed and the
pending direction are unit vectors. -/
def WellFormed (s : GameState) : Prop :=
  (∀ p ∈ s.snake, inGrid p) ∧ inGrid s.food ∧
    s.direction ∈ unitDirs ∧ s.nextDirection ∈ unitDirs

/-- The states reachable from the canonical initial configuration through
the operations of the component: ticks of the game loop, key presses, the
pause button and the reset button.  `place` abstracts the food placement
the ticks use. -/
inductive Reachable (place : List Position → Position) : GameState → Prop where
  | init : Reachable place initialState
  | tick {s : GameState} (hs : Nat) :
      Reachable place s → Reachable place (updateGame place hs s).1
  | key {s : GameState} (k : String) :
      Reachable place s → Reachable place (handleKeyPress k s)
  | pause {s : GameState} :
      Reachable place s → Reachable place (togglePause s)
  | reset {s : GameState} :
      Reachable place s → Reachable place (resetGame s)

/-- The key-to-direction bindings of `handleKeyPress` (Home.tsx lines
344-363): arrow keys and WASD, already lowercased. -/
def keyBindings : List (String × Position) :=
  [("arrowup", ⟨0, -1⟩), ("w", ⟨0, -1⟩),
   ("arrowdown", ⟨0, 1⟩), ("s", ⟨0, 1⟩),
   ("arrowleft", ⟨-1, 0⟩), ("a", ⟨-1, 0⟩),
   ("arrowright", ⟨1, 0⟩), ("d", ⟨1, 0⟩)]

/-- Two directions have a nonzero component on the same axis. -/
def sameAxis (c d : Position) : Prop :=
  (c.x ≠ 0 ∧ d.x ≠ 0) ∨ (c.y ≠ 0 ∧ d.y ≠ 0)

instance (c d : Position) : Decidable (sameAxis c d) := by
  unfold sameAxis; infer_instance

/-- Scenario-B state: a two-cell snake one step left of the food. -/
def eatState : GameState :=
  { snake := [⟨14, 15⟩, ⟨13, 15⟩], food := ⟨15, 15⟩, direction := ⟨1, 0⟩,
    nextDirection := ⟨1, 0⟩, score := 0, gameOver := false, isPaused := false }

/-- A concrete running state heading right into its own body: head (5,5),
body cell (6,5), direction (1,0); the wrapped next head is (6,5). -/
def collisionState : GameState :=
  { snake := [⟨5, 5⟩, ⟨6, 5⟩], food := ⟨0, 0⟩, direction := ⟨1, 0⟩,
    nextDirection := ⟨1, 0⟩, score := 0, gameOver := false, isPaused := false }

/-- A concrete running state moving up with a pending right turn whose
wrapped next head (15,17) is an existing body cell. -/
def turnCollisionState : GameState :=
  { snake := [⟨14, 17⟩, ⟨14, 18⟩, ⟨15, 18⟩, ⟨15, 17⟩, ⟨15, 16⟩],
    food := ⟨0, 0⟩, direction := ⟨0, -1⟩, nextDirection := ⟨1, 0⟩,
    score := 40, gameOver := false, isPaused := false }

theorem wrap_twenty : wrap 20 = 0 := by decide

theorem wrap_neg_one : wrap (-1) = 19 := by decide

theorem updateGame_fst_gameOver_of_hitsSelf (place : List Position → Position)
    (hs : Nat) (s : GameState) (hgo : s.gameOver = false)
    (hp : s.isPaused = false) (hc : hitsSelf s = true) :
    (updateGame place hs s).1 =
      { s with direction := s.nextDirection, gameOver := true } := by
  simp [updateGame, hgo, hp, hc]

/-- C1: if the game is running (not over, not paused) and the wrapped new
head lands on an existing snake cell, the tick sets `gameOver` and leaves
the snake and the score exactly as they were: the speculative head is not
added. -/
theorem selfCollision_freezes_snake_and_score
    (place : List Position → Position) (hs : Nat) (s : GameState)
    (hgo : s.gameOver = false) (hp : s.isPaused = false)
    (hc : onSnake s.snake (nextHead s) = true) :
    (updateGame place hs s).1.gameOver = true ∧
    (updateGame place hs s).1.snake = s.snake ∧
    (updateGame place hs s).1.score = s.score := by
  rw [updateGame_fst_gameOver_of_hitsSelf place hs s hgo hp hc]
  exact ⟨rfl, rfl, rfl⟩

/-- Witness for C1: a concrete running state whose next head (6,5) is an
existing body cell. -/
theorem selfCollision_freezes_snake_and_score_witness :
    (updateGame (fun _ => ⟨0, 0⟩) 0 collisionState).1.gameOver = true ∧
      (updateGame (fun _ => ⟨0, 0⟩) 0 collisionState).1.snake =
        collisionState.snake ∧
      (updateGame (fun _ => ⟨0, 0⟩) 0 collisionState).1.score =
        collisionState.score :=
  selfCollision_freezes_snake_and_score (fun _ => ⟨0, 0⟩) 0 collisionState
    rfl rfl (by decide)

/-- C8: while paused or after game over, a tick is a no-op (it also signals
no high-score write), and so is any number of iterated ticks. -/
theorem tick_noop_paused_or_gameOver
    (place : List Position → Position) (hs : Nat) (s : GameState)
    (h : s.isPaused = true ∨ s.gameOver = true) :
    updateGame place hs s = (s, none) ∧
      ∀ n : Nat, (fun t => (updateGame place hs t).1)^[n] s = s := by
  have h1 : updateGame place hs s = (s, none) := by
    rcases h with h | h <;> simp [updateGame, h]
  refine ⟨h1, fun n => Function.iterate_fixed ?_ n⟩
  simp [h1]

/-- Witness for C8: the initial state with the pause flag set is fixed by
three ticks. -/
theorem tick_noop_paused_or_gameOver_witness :
    updateGame (fun _ => ⟨0, 0⟩) 7 { initialState with isPaused := true } =
      ({ initialState with isPaused := true }, none) ∧
      ∀ n : Nat, (fun t => (updateGame (fun _ => ⟨0, 0⟩) 7 t).1)^[n]
        { initialState with isPaused := true } =
        { initialState with isPaused := true } :=
  tick_noop_paused_or_gameOver (fun _ => ⟨0, 0⟩) 7
    { initialState with isPaused := true } (Or.inl rfl)

/-- C10: on the tick that sets game over, the direction has already been
committed to the pending `nextDirection` (Home.tsx line 302 runs before the
collision check at line 312), while food, the pending direction and the
pause flag are untouched. -/
theorem gameOver_tick_commits_direction
    (place : List Position → Position) (hs : Nat) (s : GameState)
    (hgo : s.gameOver = false) (hp : s.isPaused = false)
    (hc : onSnake s.snake (nextHead s) = true) :
    (updateGame place hs s).1.direction = s.nextDirection ∧
      (updateGame place hs s).1.food = s.food ∧
      (updateGame place hs s).1.nextDirection = s.nextDirection ∧
      (updateGame place hs s).1.isPaused = s.isPaused ∧
      (updateGame place hs s).1.gameOver = true := by
  rw [updateGame_fst_gameOver_of_hitsSelf place hs s hgo hp hc]
  exact ⟨rfl, rfl, rfl, rfl, rfl⟩

/-- Witness for C10: a running state about to run into its own body with a
pending downward turn; the committed direction after the fatal tick is the
pending one. -/
theorem gameOver_tick_commits_direction_witness :
    (updateGame (fun _ => ⟨0, 0⟩) 3 turnCollisionState).1.direction =
        turnCollisionState.nextDirection ∧
      (updateGame (fun _ => ⟨0, 0⟩) 3 turnCollisionState).1.food =
        turnCollisionState.food ∧
      (updateGame (fun _ => ⟨0, 0⟩) 3 turnCollisionState).1.nextDirection =
        turnCollisionState.nextDirection ∧
      (updateGame (fun _ => ⟨0, 0⟩) 3 turnCollisionState).1.isPaused =
        turnCollisionState.isPaused ∧
      (updateGame (fun _ => ⟨0, 0⟩) 3 turnCollisionState).1.gameOver = true :=
  gameOver_tick_commits_direction (fun _ => ⟨0, 0⟩) 3 turnCollisionState
    rfl rfl (by decide)

/-- Counterexample for C4 as stated: in a game-over state, the pause-toggle
intent delivered through the designated key (space, Home.tsx lines 364-369)
is not ignored — it flips the pause flag and changes the state. -/
theorem pause_intent_not_ignored_when_gameOver_cex :
    handleKeyPress " " { initialState with gameOver := true } ≠
      { initialState with gameOver := true } := by
  decide

/-- C4 (amended): when the game is over, the `togglePause` button handler
leaves the state unchanged (its `!gameState.gameOver` guard fires), but the
keyboard space handler still flips the pause flag. -/
theorem togglePause_ignored_when_gameOver (s : GameState)
    (h : s.gameOver = true) :
    togglePause s = s ∧ (handleKeyPress " " s).isPaused = !s.isPaused := by
  exact ⟨by simp [togglePause, h], rfl⟩

/-- Witness for C4 (amended) at a concrete game-over state. -/
theorem togglePause_ignored_when_gameOver_witness :
    togglePause { initialState with gameOver := true } =
        { initialState with gameOver := true } ∧
      (handleKeyPress " " { initialState with gameOver := true }).isPaused =
        !({ initialState with gameOver := true } : GameState).isPaused :=
  togglePause_ignored_when_gameOver { initialState with gameOver := true } rfl

/-- C5 (code bug demonstration): a two-game session driven through the
session model.  Game one ends in game over at score 40, and the persisted
high score becomes 40.  After a reset, game two ends at score 30 — which
does not exceed the then-current high score 40 — yet the persisted high
score is overwritten to 30, because the interval installed by the game-loop
`useEffect` keeps invoking the first-render `updateGame`, whose captured
`highScore` is frozen at the mount-time value 0. -/
theorem highScore_stale_closure_overwrite :
    (runSession foodScript 0 (initialState, 0) gameTrace1).1.gameOver =
        true ∧
      (runSession foodScript 0 (initialState, 0) gameTrace1).2 = 40 ∧
      (runSession foodScript 0
        (runSession foodScript 0 (initialState, 0) gameTrace1)
        (Event.reset :: gameTrace2)).1.score = 30 ∧
      (runSession foodScript 0
        (runSession foodScript 0 (initialState, 0) gameTrace1)
        (Event.reset :: gameTrace2)).2 = 30 := by
  decide

/-- C2: a running tick that does not end in game over increments the score
by exactly 10 and the snake length by exactly 1 when the new head is the
food, and otherwise changes neither (the head is prepended and the tail
dropped). -/
theorem tick_growth_and_score
    (place : List Position → Position) (hs : Nat) (s : GameState)
    (hgo : s.gameOver = false) (hp : s.isPaused = false)
    (hafter : (updateGame place hs s).1.gameOver = false) :
    (eatsFood s = true →
        (updateGame place hs s).1.score = s.score + 10 ∧
        (updateGame place hs s).1.snake.length = s.snake.length + 1) ∧
      (eatsFood s = false →
        (updateGame place hs s).1.score = s.score ∧
        (updateGame place hs s).1.snake.length = s.snake.length) := by
  have hc : hitsSelf s = false := by
    by_cases h : hitsSelf s = true
    · rw [updateGame_fst_gameOver_of_hitsSelf place hs s hgo hp h] at hafter
      simp at hafter
    · simpa using h
  constructor <;> intro he <;>
    simp [updateGame, hgo, hp, hc, he, List.length_dropLast]

/-- Witness for C2 at the scenario-B state, whose next head is the food. -/
theorem tick_growth_and_score_witness :
    (updateGame (fun _ => ⟨0, 0⟩) 0 eatState).1.score = eatState.score + 10 ∧
      (updateGame (fun _ => ⟨0, 0⟩) 0 eatState).1.snake.length =
        eatState.snake.length + 1 :=
  (tick_growth_and_score (fun _ => ⟨0, 0⟩) 0 eatState rfl rfl (by decide)).1
    (by decide)

/-- C3: with the current direction one of the four unit vectors, a submitted
candidate whose nonzero component lies on the axis the direction already
moves along (in particular the exact opposite direction) leaves the pending
`nextDirection` unchanged, while a perpendicular candidate overwrites it. -/
theorem submitDirection_axis_rule (s : GameState) (key : String) (c : Position)
    (hd : s.direction ∈ unitDirs) (hkc : (key, c) ∈ keyBindings) :
    (sameAxis c s.direction →
        (handleKeyPress key s).nextDirection = s.nextDirection) ∧
      (¬ sameAxis c s.direction →
        (handleKeyPress key s).nextDirection = c) := by
  simp only [unitDirs, List.mem_cons, List.not_mem_nil, or_false] at hd
  simp only [keyBindings, List.mem_cons, List.not_mem_nil, or_false,
    Prod.mk.injEq] at hkc
  rcases hkc with hb | hb | hb | hb | hb | hb | hb | hb <;>
  obtain ⟨rfl, rfl⟩ := hb <;>
  rcases hd with h | h | h | h <;>
  constructor <;> intro hax <;>
  simp_all [handleKeyPress, sameAxis, h]

/-- Witness for C3: while moving right, the opposite candidate (left) is
rejected and a perpendicular candidate (down) is accepted. -/
theorem submitDirection_axis_rule_witness :
    ((handleKeyPress "arrowleft" initialState).nextDirection =
        initialState.nextDirection) ∧
      (handleKeyPress "arrowdown" initialState).nextDirection = ⟨0, 1⟩ :=
  ⟨(submitDirection_axis_rule initialState "arrowleft" ⟨-1, 0⟩ (by decide)
      (by decide)).1 (by decide),
   (submitDirection_axis_rule initialState "arrowdown" ⟨0, 1⟩ (by decide)
      (by decide)).2 (by decide)⟩
theorem wrap_mem (v : Int) (h : -20 ≤ v) : 0 ≤ wrap v ∧ wrap v < GRID_SIZE := by
  unfold wrap
  have hv : 0 ≤ v + GRID_SIZE := by simp [GRID_SIZE] at h ⊢; omega
  rw [Int.tmod_eq_emod hv (by decide)]
  exact ⟨Int.emod_nonneg _ (by decide), Int.emod_lt_of_pos _ (by decide)⟩

theorem mem_unitDirs_bounds {d : Position} (h : d ∈ unitDirs) :
    -1 ≤ d.x ∧ d.x ≤ 1 ∧ -1 ≤ d.y ∧ d.y ≤ 1 := by
  simp only [unitDirs, List.mem_cons, List.not_mem_nil, or_false] at h
  rcases h with rfl | rfl | rfl | rfl <;> decide

theorem headI_inGrid {s : GameState} (hsn : ∀ p ∈ s.snake, inGrid p) :
    inGrid s.snake.headI := by
  cases hl : s.snake with
  | nil => decide
  | cons a t =>
      have ha : (a :: t).headI = a := rfl
      rw [ha]
      exact hsn a (by rw [hl]; exact List.mem_cons_self a t)

theorem nextHead_inGrid {s : GameState} (hsn : ∀ p ∈ s.snake, inGrid p)
    (hnd : s.nextDirection ∈ unitDirs) : inGrid (nextHead s) := by
  have hh := headI_inGrid hsn
  have hb := mem_unitDirs_bounds hnd
  simp only [inGrid, GRID_SIZE, Nat.cast_ofNat] at hh ⊢
  obtain ⟨hx0, hx1, hy0, hy1⟩ := hh
  obtain ⟨dx0, dx1, dy0, dy1⟩ := hb
  have h1 := wrap_mem (s.snake.headI.x + s.nextDirection.x) (by omega)
  have h2 := wrap_mem (s.snake.headI.y + s.nextDirection.y) (by omega)
  simp only [GRID_SIZE, Nat.cast_ofNat] at h1 h2
  exact ⟨h1.1, h1.2, h2.1, h2.2⟩

theorem initial_WF : WellFormed initialState := by
  refine ⟨?_, ?_, ?_, ?_⟩ <;> decide

theorem updateGame_preserves_WF {place : List Position → Position}
    (hp : ∀ l, inGrid (place l)) {hs : Nat} {s : GameState}
    (h : WellFormed s) : WellFormed (updateGame place hs s).1 := by
  obtain ⟨hsn, hf, hd, hnd⟩ := h
  by_cases h1 : (s.gameOver || s.isPaused) = true
  · have he : (updateGame place hs s).1 = s := by simp [updateGame, h1]
    rw [he]
    exact ⟨hsn, hf, hd, hnd⟩
  · have h1' : s.gameOver = false ∧ s.isPaused = false := by
      simp only [Bool.or_eq_true, not_or, Bool.not_eq_true] at h1
      exact h1
    by_cases h2 : hitsSelf s = true
    · rw [updateGame_fst_gameOver_of_hitsSelf place hs s h1'.1 h1'.2 h2]
      exact ⟨hsn, hf, hnd, hnd⟩
    · have h2' : hitsSelf s = false := by simpa using h2
      by_cases h3 : eatsFood s = true
      · have he : (updateGame place hs s).1 =
            { s with direction := s.nextDirection,
                     snake := nextHead s :: s.snake, score := s.score + 10,
                     food := place (nextHead s :: s.snake) } := by
          simp [updateGame, h1'.1, h1'.2, h2', h3]
        rw [he]
        refine ⟨?_, hp _, hnd, hnd⟩
        intro p hp'
        have hp2 : p ∈ nextHead s :: s.snake := hp'
        rcases List.mem_cons.1 hp2 with rfl | hp3
        · exact nextHead_inGrid hsn hnd
        · exact hsn _ hp3
      · have h3' : eatsFood s = false := by simpa using h3
        have he : (updateGame place hs s).1 =
            { s with direction := s.nextDirection,
                     snake := (nextHead s :: s.snake).dropLast } := by
          simp [updateGame, h1'.1, h1'.2, h2', h3']
        rw [he]
        refine ⟨?_, hf, hnd, hnd⟩
        intro p hp'
        have hp2 : p ∈ (nextHead s :: s.snake).dropLast := hp'
        have hmem := List.dropLast_subset _ hp2
        rcases List.mem_cons.1 hmem with rfl | hmem
        · exact nextHead_inGrid hsn hnd
        · exact hsn _ hmem

theorem handleKeyPress_preserves_WF {k : String} {s : GameState}
    (h : WellFormed s) : WellFormed (handleKeyPress k s) := by
  obtain ⟨hsn, hf, hd, hnd⟩ := h
  unfold handleKeyPress
  split_ifs <;> refine ⟨hsn, hf, hd, ?_⟩ <;>
    first
      | exact hnd
      | exact (show (⟨0, -1⟩ : Position) ∈ unitDirs by decide)
      | exact (show (⟨0, 1⟩ : Position) ∈ unitDirs by decide)
      | exact (show (⟨-1, 0⟩ : Position) ∈ unitDirs by decide)
      | exact (show (⟨1, 0⟩ : Position) ∈ unitDirs by decide)

theorem togglePause_preserves_WF {s : GameState}
    (h : WellFormed s) : WellFormed (togglePause s) := by
  obtain ⟨hsn, hf, hd, hnd⟩ := h
  unfold togglePause
  split_ifs <;> exact ⟨hsn, hf, hd, hnd⟩

theorem reachable_WF {place : List Position → Position} {s : GameState}
    (hp : ∀ l, inGrid (place l)) (hr : Reachable place s) : WellFormed s := by
  induction hr with
  | init => exact initial_WF
  | tick hs _ ih => exact updateGame_preserves_WF hp ih
  | key k _ ih => exact handleKeyPress_preserves_WF ih
  | pause _ ih => exact togglePause_preserves_WF ih
  | reset _ _ => exact initial_WF

/-- C6: in every reachable state of the component (under any food placement
that returns grid cells, as `generateFood` does), every snake cell and the
food cell have coordinates in `[0, GRID_SIZE)`; and the wrapping arithmetic
sends each off-edge coordinate to the opposite edge (`GRID_SIZE-1` stepping
forward lands on `0`, and `0` stepping backward lands on `GRID_SIZE-1`). -/
theorem reachable_coords_in_grid (place : List Position → Position)
    (hp : ∀ l, inGrid (place l)) (s : GameState) (hr : Reachable place s) :
    (∀ p ∈ s.snake, inGrid p) ∧ inGrid s.food ∧
      wrap (GRID_SIZE - 1 + 1) = 0 ∧ wrap (0 - 1) = GRID_SIZE - 1 := by
  obtain ⟨h1, h2, _, _⟩ := reachable_WF hp hr
  exact ⟨h1, h2, by decide, by decide⟩

/-- Witness for C6 at the initial state with a constant in-grid placement. -/
theorem reachable_coords_in_grid_witness :
    (∀ p ∈ initialState.snake, inGrid p) ∧ inGrid initialState.food ∧
      wrap (GRID_SIZE - 1 + 1) = 0 ∧ wrap (0 - 1) = GRID_SIZE - 1 :=
  reachable_coords_in_grid (fun _ => ⟨0, 0⟩)
    (fun _ => show inGrid ⟨0, 0⟩ by decide) initialState Reachable.init
theorem card_gridCells : gridCells.card = GRID_SIZE * GRID_SIZE := by
  unfold gridCells
  rw [Finset.card_image_of_injective]
  · rw [Finset.card_product, Finset.card_range]
  · intro a b hab
    cases a; cases b
    simp only [Position.mk.injEq, Int.natCast_inj] at hab
    simp [Prod.ext_iff]
    exact hab

theorem mem_gridCells_inGrid {p : Position} (h : p ∈ gridCells) : inGrid p := by
  unfold gridCells at h
  simp only [Finset.mem_image, Finset.mem_product, Finset.mem_range] at h
  obtain ⟨⟨a, b⟩, hab, rfl⟩ := h
  refine ⟨Int.natCast_nonneg a, ?_, Int.natCast_nonneg b, ?_⟩
  · show (a : Int) < (GRID_SIZE : Int)
    exact_mod_cast hab.1
  · show (b : Int) < (GRID_SIZE : Int)
    exact_mod_cast hab.2

theorem exists_cell_off_snake (snake : List Position)
    (hlen : snake.length < GRID_SIZE * GRID_SIZE) :
    ∃ p, inGrid p ∧ onSnake snake p = false := by
  have h1 : snake.toFinset.card ≤ snake.length := snake.toFinset_card_le
  have hns : ¬ gridCells ⊆ snake.toFinset := by
    intro hsub
    have h2 := Finset.card_le_card hsub
    rw [card_gridCells] at h2
    omega
  obtain ⟨p, hpg, hpn⟩ := Finset.not_subset.1 hns
  refine ⟨p, mem_gridCells_inGrid hpg, ?_⟩
  simp only [onSnake, List.any_eq_false, Bool.and_eq_true, beq_iff_eq, not_and]
  intro seg hseg hx hy
  apply hpn
  rw [List.mem_toFinset]
  have hsp : seg = p := by cases seg; cases p; simp_all
  rw [← hsp]
  exact hseg

theorem generateFood_loop_exit (snake : List Position) (rng : Nat → Nat)
    (hlen : snake.length < GRID_SIZE * GRID_SIZE) (hfair : FairRng rng) :
    ∃ i, onSnake snake (cand rng i) = false := by
  obtain ⟨p, hg, hoff⟩ := exists_cell_off_snake snake hlen
  obtain ⟨i, hi⟩ := hfair p hg
  exact ⟨i, by rw [hi]; exact hoff⟩

theorem enumRng_fair : FairRng enumRng := by
  intro p hg
  obtain ⟨px, py⟩ := p
  obtain ⟨hx0, hx1, hy0, hy1⟩ := hg
  simp only [GRID_SIZE, Nat.cast_ofNat] at hx1 hy1
  refine ⟨px.toNat + GRID_SIZE * py.toNat, ?_⟩
  simp only [cand, enumRng, GRID_SIZE]
  rw [if_pos (by omega), if_neg (by omega)]
  have m1 : 2 * (px.toNat + 20 * py.toNat) / 2 % 20 % 20 = px.toNat := by omega
  have m2 : (2 * (px.toNat + 20 * py.toNat) + 1) / 2 / 20 % 20 = py.toNat := by
    omega
  rw [m1, m2]
  simp only [Position.mk.injEq]
  exact ⟨Int.toNat_of_nonneg hx0, Int.toNat_of_nonneg hy0⟩

/-- C7: whatever cell the rejection-sampling loop of `generateFood` returns
is not a member of the snake it was given (the argument `h` is the evidence
that the loop exits). -/
theorem generateFood_not_on_snake (snake : List Position) (rng : Nat → Nat)
    (h : ∃ i, onSnake snake (cand rng i) = false) :
    onSnake snake (generateFood snake rng h) = false :=
  Nat.find_spec h

/-- Witness for C7: the enumerating stream on a one-cell snake; its first
candidate (0,0) is already off the snake. -/
theorem generateFood_not_on_snake_witness :
    onSnake [⟨10, 10⟩]
      (generateFood [⟨10, 10⟩] enumRng ⟨0, by decide⟩) = false :=
  generateFood_not_on_snake [⟨10, 10⟩] enumRng ⟨0, by decide⟩

/-- C9: for every snake shorter than the 400 grid cells and every fair
random stream, the rejection-sampling loop of `generateFood` exits — some
sampled candidate is off the snake, by pigeonhole over the grid — and the
returned cell is then off the snake. -/
theorem generateFood_terminates (snake : List Position) (rng : Nat → Nat)
    (hlen : snake.length < GRID_SIZE * GRID_SIZE) (hfair : FairRng rng) :
    ∃ h : (∃ i, onSnake snake (cand rng i) = false),
      onSnake snake (generateFood snake rng h) = false := by
  have h := generateFood_loop_exit snake rng hlen hfair
  exact ⟨h, Nat.find_spec h⟩

/-- Witness for C9: a one-cell snake and the enumerating stream. -/
theorem generateFood_terminates_witness :
    ∃ h : (∃ i, onSnake [⟨10, 10⟩] (cand enumRng i) = false),
      onSnake [⟨10, 10⟩] (generateFood [⟨10, 10⟩] enumRng h) = false :=
  generateFood_terminates [⟨10, 10⟩] enumRng (by decide) enumRng_fair
